import Mathlib

/-!
Shallow embedding of the tracking / association / localization core of the
VERAOS vision system (src/components/VisionSystem.tsx) together with the
detection-worker interface (src/utils/workerScript.ts).

Conventions of the embedding:
* JavaScript numbers that only ever meet rational arithmetic (scores, boxes,
  opacities, lerp factors, timestamps) are modelled as ℚ resp. ℤ;
  quantities that flow through Math.sqrt / Math.tan (distances, 3D physics)
  are modelled as ℝ.
* JavaScript Maps keyed by track id are modelled as lists in insertion
  order; Map.get is List.find? on the id.
* Purely presentational per-tracker fields of the source (color, isRemote,
  rotationOffset, displayDist, lastLabelUpdate, hasLidarScan) feed only the
  WebGL label textures and are omitted from the tracker record; no modelled
  observable depends on them.
-/

/-- Axis-aligned bounding box, the source's 4-element arrays (x, y, w, h). -/
structure Box4 where
  x : ℚ
  y : ℚ
  w : ℚ
  h : ℚ
  deriving DecidableEq

/-- 3-vector in scene space, the source's Vector3 with real components. -/
structure Vec3 where
  x : ℝ
  y : ℝ
  z : ℝ

/-- PhysicsState of a tracker (VisionSystem.tsx lines 25-30). -/
structure PhysicsState where
  current : Vec3
  target : Vec3
  velocity : Vec3
  scale : ℚ

/-- TrackerState (VisionSystem.tsx lines 32-48), restricted to the fields the
tracking logic reads or writes; presentational fields are omitted. -/
structure TrackerState where
  id : ℕ
  cls : String
  lastSeenTime : ℤ
  consecutiveMisses : ℕ
  opacity : ℚ
  lockedBox : Box4
  physics : PhysicsState
  scanProgress : ℚ
  gesture : Option String

/-- One detection of a worker result batch (workerScript predictions). -/
structure Detection where
  cls : String
  score : ℚ
  bbox : Box4
  gesture : Option String

/-- AnalysisMode of the app (App.tsx type AnalysisMode). -/
inductive AnalysisMode where
  | AUTO
  | DETAILED
  | SILENT
  deriving DecidableEq

/-- Output record pushed once per tick per surviving tracker
(VisionSystem.tsx lines 439-444, interface TrackedObject). -/
structure TrackedObject where
  id : ℕ
  cls : String
  confidence : ℚ
  bbox : Box4
  position3D : Vec3
  distance : ℝ
  lastSeen : ℤ
  isOccluded : Bool
  isSelected : Bool
  depthSource : String
  gesture : Option String
  scanProgress : ℚ

/-- Lowercasing of a string, modelling String.prototype.toLowerCase on the
ASCII class labels that occur. -/
def toLowerStr (s : String) : String := ⟨s.data.map Char.toLower⟩

/-- Uppercasing of a string, modelling String.prototype.toUpperCase. -/
def toUpperStr (s : String) : String := ⟨s.data.map Char.toUpper⟩

/-- getRealWorldHeight (VisionSystem.tsx lines 56-64): fixed per-class table
of reference heights in meters, defaulting to 0.5 for unknown classes. -/
def getRealWorldHeight (cls : String) : ℚ :=
  let l := toLowerStr cls
  if l = "person" then 1.70
  else if l = "cup" then 0.15
  else if l = "bottle" then 0.25
  else if l = "wine_glass" then 0.20
  else if l = "bowl" then 0.15
  else if l = "chair" then 1.0
  else if l = "couch" then 0.9
  else if l = "potted_plant" then 0.5
  else if l = "tv" then 0.7
  else if l = "laptop" then 0.3
  else if l = "mouse" then 0.05
  else if l = "remote" then 0.15
  else if l = "keyboard" then 0.05
  else if l = "cell_phone" then 0.15
  else if l = "book" then 0.25
  else if l = "vase" then 0.3
  else if l = "hand" then 0.20
  else 0.5

/-- Table keys of getRealWorldHeight, for stating the default case. -/
def realWorldHeightKeys : List String :=
  ["person", "cup", "bottle", "wine_glass", "bowl", "chair", "couch",
   "potted_plant", "tv", "laptop", "mouse", "remote", "keyboard",
   "cell_phone", "book", "vase", "hand"]

/-- Degree-to-radian conversion (THREE.MathUtils.degToRad). -/
noncomputable def degToRad (d : ℝ) : ℝ := d * Real.pi / 180

/-- Letterboxed mapping of the video into the viewport
(VisionSystem.tsx lines 524-533): render size and centering offsets. -/
structure Letterbox where
  renderW : ℝ
  renderH : ℝ
  offsetX : ℝ
  offsetY : ℝ

/-- Aspect-preserving letterbox computation of calculate3DPosition. -/
noncomputable def letterbox (videoW videoH screenW screenH : ℝ) : Letterbox :=
  let videoRatio := videoW / videoH
  let screenRatio := screenW / screenH
  if screenRatio > videoRatio then
    ⟨screenW, screenW / videoRatio, 0, (screenH - screenW / videoRatio) / 2⟩
  else
    ⟨screenH * videoRatio, screenH, (screenW - screenH * videoRatio) / 2, 0⟩

/-- calculate3DPosition (VisionSystem.tsx lines 522-552): monocular 3D
localization of a bounding box. The camera fov is passed as a parameter
(the source reads cameraRef.current?.fov || 75). -/
noncomputable def calculate3DPosition (bbox : Box4) (cls : String)
    (videoW videoH screenW screenH fov : ℝ) : Vec3 :=
  let x : ℝ := (bbox.x : ℚ)
  let y : ℝ := (bbox.y : ℚ)
  let w : ℝ := (bbox.w : ℚ)
  let h : ℝ := (bbox.h : ℚ)
  let lb := letterbox videoW videoH screenW screenH
  let scaleX := lb.renderW / videoW
  let scaleY := lb.renderH / videoH
  let screenBoxCenterX := (x * scaleX + lb.offsetX) + (w * scaleX) / 2
  let screenBoxCenterY := (y * scaleY + lb.offsetY) + (h * scaleY) / 2
  let ndcX := (screenBoxCenterX / screenW) * 2 - 1
  let ndcY := -(screenBoxCenterY / screenH) * 2 + 1
  let realHeight : ℝ := (getRealWorldHeight cls : ℚ)
  let projectedHeight := h * scaleY
  let screenHeightFraction := projectedHeight / screenH
  let fovRad := degToRad fov
  let z0 := (realHeight / screenHeightFraction) / (2 * Real.tan (fovRad / 2))
  let z1 := max 1.5 (min 50.0 z0)
  let z := -z1
  let visibleHeightAtZ := 2 * |z| * Real.tan (fovRad / 2)
  let visibleWidthAtZ := visibleHeightAtZ * (screenW / screenH)
  ⟨(ndcX * visibleWidthAtZ) / 2, (ndcY * visibleHeightAtZ) / 2, z⟩

/-- Lexicographic strict comparison on char data, by code point; models the
default JavaScript Array.prototype.sort string ordering for the class labels
that occur. -/
def strLtB : List Char → List Char → Bool
  | [], [] => false
  | [], _ :: _ => true
  | _ :: _, [] => false
  | a :: as, b :: bs =>
      if a.val < b.val then true
      else if b.val < a.val then false
      else strLtB as bs

/-- Non-strict string comparison derived from strLtB. -/
def strLe (s t : String) : Bool := !(strLtB t.data s.data)

/-- Insertion of a string into a sorted list (helper of sortStrings). -/
def insertSorted (s : String) : List String → List String
  | [] => [s]
  | t :: ts => if strLe s t then s :: t :: ts else t :: insertSorted s ts

/-- Sorting a list of class labels, modelling classes.sort() in
checkSceneChange (VisionSystem.tsx line 332). -/
def sortStrings : List String → List String
  | [] => []
  | s :: ss => insertSorted s (sortStrings ss)

/-- Scene signature: the sorted class list joined with commas
(VisionSystem.tsx line 332). -/
def sceneSig (classes : List String) : String :=
  String.intercalate "," (sortStrings classes)

/-- Distinct elements in order of first occurrence, modelling the key
insertion order of the counts object (VisionSystem.tsx lines 336-337). -/
def seenDedup (seen : List String) : List String → List String
  | [] => []
  | c :: cs =>
      if c ∈ seen then seenDedup seen cs
      else c :: seenDedup (c :: seen) cs

/-- Human-readable per-class count summary (VisionSystem.tsx line 338). -/
def summaryOf (classes : List String) : String :=
  String.intercalate ", "
    ((seenDedup [] classes).map
      (fun c => toUpperStr c ++ " x" ++ toString (classes.count c)))

/-- State of the scene-change detector: last reported signature and last
evaluation timestamp (lastObjectSetRef, lastAnalysisTimeRef). -/
structure SceneState where
  lastObjectSet : String
  lastAnalysisTime : ℤ
  deriving DecidableEq

/-- checkSceneChange (VisionSystem.tsx lines 328-347). Returns the updated
detector state and the emitted scene-change message, if any. Note that the
source sorts the classes array in place before the counts are taken, so the
summary is computed over the sorted list, and that lastAnalysisTimeRef is
written on every call that passes the 2000 ms gate, reported or not. -/
def checkSceneChange (mode : AnalysisMode) (currentIds classes : List String)
    (now : ℤ) (st : SceneState) : SceneState × Option String :=
  let _ := currentIds
  if now - st.lastAnalysisTime < 2000 then (st, none)
  else
    let sorted := sortStrings classes
    let currentSetSig := String.intercalate "," sorted
    if currentSetSig ≠ st.lastObjectSet then
      let summary := summaryOf sorted
      let msg := if summary ≠ "" then "ДИНАМИКА: " ++ summary else "СКАНИРОВАНИЕ..."
      (⟨currentSetSig, now⟩,
       if mode = AnalysisMode.AUTO ∨ mode = AnalysisMode.DETAILED then some msg else none)
    else
      (⟨st.lastObjectSet, now⟩, none)

/-- Euclidean distance between the top-left corners of two boxes
(VisionSystem.tsx line 366). -/
noncomputable def cornerDist (a b : Box4) : ℝ :=
  Real.sqrt (((a.x - b.x : ℚ) : ℝ) ^ 2 + ((a.y - b.y : ℚ) : ℝ) ^ 2)

/-- Map.get on the registry: first tracker with the given id. -/
def findTracker (ts : List TrackerState) (tid : ℕ) : Option TrackerState :=
  ts.find? (fun t => t.id == tid)

/-- Body of the candidate scan of handleWorkerPredictions
(VisionSystem.tsx lines 363-368): skip other classes, keep the strictly
closer of the accumulator and the current candidate. -/
noncomputable def bestStep (ts : List TrackerState) (cls : String) (sb : Box4)
    (acc : ℝ × Option ℕ) (tid : ℕ) : ℝ × Option ℕ :=
  match findTracker ts tid with
  | none => acc
  | some t =>
      if t.cls ≠ cls then acc
      else if cornerDist sb t.lockedBox < acc.1 then (cornerDist sb t.lockedBox, some tid)
      else acc

/-- Nearest-neighbour search over the still-available trackers, seeded with
the 200-unit gate and no candidate (VisionSystem.tsx lines 361-368). -/
noncomputable def findBest (ts : List TrackerState) (avail : List ℕ)
    (cls : String) (sb : Box4) : ℝ × Option ℕ :=
  avail.foldl (bestStep ts cls sb) (200, none)

/-- Componentwise scaling of a detection box by the batch scaleFactor
(VisionSystem.tsx line 360). -/
def scaleBox (sf : ℚ) (b : Box4) : Box4 :=
  ⟨b.x * sf, b.y * sf, b.w * sf, b.h * sf⟩

/-- Update of a matched tracker (VisionSystem.tsx lines 370-380): exponential
box smoothing with the cadence-dependent lerp factor, match bookkeeping and
opacity reset. -/
def matchedUpdate (now : ℤ) (interval : ℚ) (gesture : Option String)
    (sb : Box4) (t : TrackerState) : TrackerState :=
  let lerpFactor : ℚ := if interval > 300 then 0.5 else 0.4
  { t with
    lockedBox :=
      ⟨t.lockedBox.x + (sb.x - t.lockedBox.x) * lerpFactor,
       t.lockedBox.y + (sb.y - t.lockedBox.y) * lerpFactor,
       t.lockedBox.w + (sb.w - t.lockedBox.w) * lerpFactor,
       t.lockedBox.h + (sb.h - t.lockedBox.h) * lerpFactor⟩,
    lastSeenTime := now,
    consecutiveMisses := 0,
    gesture := gesture,
    opacity := 1.0 }

/-- Freshly created tracker (VisionSystem.tsx lines 388-394): seeded with the
raw scaled box, the far-away physics placeholder at z = -10 and opacity 1. -/
def newTracker (now : ℤ) (newId : ℕ) (cls : String) (gesture : Option String)
    (sb : Box4) : TrackerState :=
  { id := newId, cls := cls, lastSeenTime := now, consecutiveMisses := 0,
    opacity := 1.0, lockedBox := sb,
    physics :=
      { current := ⟨0, 0, -10⟩, target := ⟨0, 0, -10⟩,
        velocity := ⟨0, 0, 0⟩, scale := 0.1 },
    scanProgress := 0, gesture := gesture }

/-- Mutable state threaded through one association pass: the registry, the
label handles, the not-yet-matched tracker ids, the ids and classes collected
for checkSceneChange, and the id counter. -/
structure AssocState where
  trackers : List TrackerState
  labels : List ℕ
  avail : List ℕ
  activeIds : List ℕ
  classes : List String
  nextId : ℕ

/-- Per-detection body of handleWorkerPredictions (VisionSystem.tsx lines
357-397). The source tests truthiness of bestId, so a candidate id 0 would
take the creation branch exactly like null; live ids are allocated from 1. -/
noncomputable def processPred (now : ℤ) (interval sf : ℚ)
    (st : AssocState) (p : Detection) : AssocState :=
  if p.score < 0.2 then st
  else
    let sb := scaleBox sf p.bbox
    let createPath : AssocState :=
      { st with
        trackers := st.trackers ++ [newTracker now st.nextId p.cls p.gesture sb],
        labels := st.labels ++ [st.nextId],
        activeIds := st.activeIds ++ [st.nextId],
        classes := st.classes ++ [p.cls],
        nextId := st.nextId + 1 }
    match (findBest st.trackers st.avail p.cls sb).2 with
    | some tid =>
        if tid = 0 then createPath
        else
          { st with
            trackers := st.trackers.map
              (fun t => if t.id = tid then matchedUpdate now interval p.gesture sb t else t),
            avail := st.avail.filter (fun u => u ≠ tid),
            activeIds := st.activeIds ++ [tid],
            classes := st.classes ++ [p.cls] }
    | none => createPath

/-- Whole-system state: registry, label handles, id counter and scene-change
detector state. -/
structure SysState where
  trackers : List TrackerState
  labels : List ℕ
  nextId : ℕ
  scene : SceneState

/-- handleWorkerPredictions (VisionSystem.tsx lines 349-399): one association
pass over a worker result batch followed by the scene-change check. Returns
the new state and the emitted scene message, if any. -/
noncomputable def handleWorkerPredictions (preds : List Detection) (sf : ℚ)
    (now : ℤ) (movingFast : Bool) (interval : ℚ) (mode : AnalysisMode)
    (st : SysState) : SysState × Option String :=
  if movingFast then (st, none)
  else
    let a0 : AssocState :=
      ⟨st.trackers, st.labels, st.trackers.map (fun t => t.id), [], [], st.nextId⟩
    let a := preds.foldl (processPred now interval sf) a0
    let r := checkSceneChange mode (a.activeIds.map toString) a.classes now st.scene
    (⟨a.trackers, a.labels, a.nextId, r.1⟩, r.2)

/-- Per-tick exponential convergence of the physics position
(VisionSystem.tsx lines 421-424): speed 0.9 under the rapid-motion flag,
0.2 otherwise. -/
noncomputable def physStep (fast : Bool) (current target : Vec3) : Vec3 :=
  let speed : ℝ := if fast then 0.9 else 0.2
  ⟨current.x + (target.x - current.x) * speed,
   current.y + (target.y - current.y) * speed,
   current.z + (target.z - current.z) * speed⟩

/-- Per-tick scan-progress advance (VisionSystem.tsx lines 431-434). -/
def scanStep (p : ℚ) : ℚ :=
  if 0 < p ∧ p < 1 then
    let q := p + 0.01
    if q > 1 then 1 else q
  else p

/-- Per-tracker body of updateVisualsAndPhysics (VisionSystem.tsx lines
418-434): physics convergence, the 500 ms lost test, opacity decay while
lost, and eviction (none) once the decayed opacity is below 0.05. -/
noncomputable def tickOne (now : ℤ) (fast : Bool)
    (videoW videoH screenW screenH fov : ℝ) (t : TrackerState) :
    Option TrackerState :=
  let calcPos := calculate3DPosition t.lockedBox t.cls videoW videoH screenW screenH fov
  let phys : PhysicsState :=
    { current := physStep fast t.physics.current calcPos, target := calcPos,
      velocity := t.physics.velocity, scale := t.physics.scale }
  let isLost := 500 < now - t.lastSeenTime
  let op := if isLost then t.opacity - 0.05 else t.opacity
  if op < 0.05 ∧ isLost then none
  else some { t with physics := phys, opacity := op, scanProgress := scanStep t.scanProgress }

/-- Output record of one surviving tracker (VisionSystem.tsx lines 439-444). -/
def entryOf (now : ℤ) (lidar : Bool) (sel : ℕ → Bool) (t : TrackerState) :
    TrackedObject :=
  { id := t.id, cls := t.cls, confidence := 1, bbox := t.lockedBox,
    position3D := t.physics.current, distance := |t.physics.current.z|,
    lastSeen := now, isOccluded := false, isSelected := sel t.id,
    depthSource := if lidar then "LIDAR_FUSION" else "AI_ESTIMATE",
    gesture := t.gesture, scanProgress := t.scanProgress }

/-- updateVisualsAndPhysics (VisionSystem.tsx lines 408-520): advance every
tracker, evict via removeTracker (registry and label handle removed), build
the output list and sort it by descending z. The isSelected flag of an entry
comes from the previous output list via the sel lookup. -/
noncomputable def updateVisualsAndPhysics (now : ℤ) (fast : Bool)
    (videoW videoH screenW screenH fov : ℝ) (lidar : Bool) (sel : ℕ → Bool)
    (st : SysState) : SysState × List TrackedObject :=
  let stepped := st.trackers.map
    (fun t => (t.id, tickOne now fast videoW videoH screenW screenH fov t))
  let survivors := stepped.filterMap (fun x => x.2)
  let evicted := (stepped.filter (fun x => x.2.isNone)).map (fun x => x.1)
  let labels2 := st.labels.filter (fun l => !(evicted.contains l))
  let entries := survivors.map (entryOf now lidar sel)
  let output := entries.mergeSort
    (fun a b => decide (b.position3D.z ≤ a.position3D.z))
  (⟨survivors, labels2, st.nextId, st.scene⟩, output)

/-- Input of one association pass, as delivered by the worker message plus
the ambient refs read by handleWorkerPredictions. -/
structure BatchInput where
  preds : List Detection
  scaleFactor : ℚ
  now : ℤ
  movingFast : Bool
  interval : ℚ
  mode : AnalysisMode

/-- Input of one render tick, as read by updateVisualsAndPhysics. -/
structure TickInput where
  now : ℤ
  movingFast : Bool
  videoW : ℝ
  videoH : ℝ
  screenW : ℝ
  screenH : ℝ
  fov : ℝ
  lidar : Bool
  sel : ℕ → Bool

/-- One event of the system: a worker result batch or a render tick. -/
inductive Event where
  | batch : BatchInput → Event
  | tick : TickInput → Event

/-- State transition of one event (outputs discarded). -/
noncomputable def applyEvent (st : SysState) : Event → SysState
  | Event.batch b =>
      (handleWorkerPredictions b.preds b.scaleFactor b.now b.movingFast
        b.interval b.mode st).1
  | Event.tick ti =>
      (updateVisualsAndPhysics ti.now ti.movingFast ti.videoW ti.videoH
        ti.screenW ti.screenH ti.fov ti.lidar ti.sel st).1

/-- Iterated state transition. -/
noncomputable def run (st : SysState) (evs : List Event) : SysState :=
  evs.foldl applyEvent st

/-- Iterated ticks of one tracker, for statements about an unmatched track. -/
noncomputable def tickRun (ts : List TickInput) (t : Option TrackerState) :
    Option TrackerState :=
  ts.foldl
    (fun o ti => o.bind
      (tickOne ti.now ti.movingFast ti.videoW ti.videoH ti.screenW
        ti.screenH ti.fov))
    t

/-! ### Helper lemmas -/

/-- Convex interpolation with a factor in [0,1] stays between the endpoints
and moves by at most the remaining gap. -/
theorem lerp_no_overshoot {α : Type*} [LinearOrderedField α] (c t s : α)
    (h0 : 0 ≤ s) (h1 : s ≤ 1) :
    min c t ≤ c + (t - c) * s ∧ c + (t - c) * s ≤ max c t ∧
      |c + (t - c) * s - c| ≤ |t - c| := by
  refine ⟨?_, ?_, ?_⟩
  · rcases le_total c t with h | h
    · rw [min_eq_left h]; nlinarith
    · rw [min_eq_right h]; nlinarith
  · rcases le_total c t with h | h
    · rw [max_eq_right h]; nlinarith
    · rw [max_eq_left h]; nlinarith
  · have he : c + (t - c) * s - c = (t - c) * s := by ring
    rw [he, abs_mul, abs_of_nonneg h0]
    exact mul_le_of_le_one_right (abs_nonneg _) h1

/-! ### Claim theorems -/

/-- C8: a detection whose confidence score is below the 0.2 floor is
discarded before matching, unconditionally and regardless of class: the
association state (registry, labels, availability set, collected classes and
ids, id counter) is left exactly unchanged. -/
theorem confidence_floor_discards (now : ℤ) (interval sf : ℚ)
    (st : AssocState) (p : Detection) (h : p.score < 0.2) :
    processPred now interval sf st p = st := by
  unfold processPred
  rw [if_pos h]

/-- Witness for C8 at a concrete sub-floor detection. -/
theorem confidence_floor_discards_witness :
    (⟨"person", 0.1, ⟨5, 6, 7, 8⟩, none⟩ : Detection).score < 0.2 ∧
      processPred 1000 150 2 ⟨[], [], [], [], [], 1⟩
          ⟨"person", 0.1, ⟨5, 6, 7, 8⟩, none⟩ =
        ⟨[], [], [], [], [], 1⟩ :=
  ⟨by norm_num,
   confidence_floor_discards 1000 150 2 ⟨[], [], [], [], [], 1⟩
     ⟨"person", 0.1, ⟨5, 6, 7, 8⟩, none⟩ (by norm_num)⟩

/-- C9: the geometry estimator is total: for every bounding box (including
zero- or negative-height boxes) and any dimensions, the returned depth
magnitude is clamped into [1.5, 50]; the division by the height fraction is
absorbed by the clamp and never faults. -/
theorem geometry_total_depth_clamped (bbox : Box4) (cls : String)
    (videoW videoH screenW screenH fov : ℝ) :
    1.5 ≤ -(calculate3DPosition bbox cls videoW videoH screenW screenH fov).z ∧
      -(calculate3DPosition bbox cls videoW videoH screenW screenH fov).z ≤ 50 := by
  constructor
  · show (1.5 : ℝ) ≤ -(calculate3DPosition bbox cls videoW videoH screenW screenH fov).z
    simp only [calculate3DPosition, neg_neg]
    exact le_max_left _ _
  · show -(calculate3DPosition bbox cls videoW videoH screenW screenH fov).z ≤ 50
    simp only [calculate3DPosition, neg_neg]
    exact max_le (by norm_num) ((min_le_left _ _).trans (by norm_num))

/-- C7 (amended): each tick moves the 3D position toward its target by the
fixed fraction (target - current) * speed, with speed 0.9 under the
rapid-motion flag and 0.2 otherwise; the smoothed bounding box moves toward
the latest scaled detection only on a batch match, by the cadence-dependent
fraction (0.5 when the processing interval exceeds 300 ms, else 0.4), and a
whole batch is skipped while the rapid-motion flag is set. Neither quantity
ever jumps past its target nor changes by more than the current gap in one
update step. -/
theorem motion_smoother_bounded_steps :
    (∀ (fast : Bool) (current target : Vec3),
        physStep fast current target =
          ⟨current.x + (target.x - current.x) * (if fast then 0.9 else 0.2),
           current.y + (target.y - current.y) * (if fast then 0.9 else 0.2),
           current.z + (target.z - current.z) * (if fast then 0.9 else 0.2)⟩) ∧
    (∀ (fast : Bool) (current target : Vec3),
        (min current.x target.x ≤ (physStep fast current target).x ∧
          (physStep fast current target).x ≤ max current.x target.x ∧
          |(physStep fast current target).x - current.x| ≤ |target.x - current.x|) ∧
        (min current.y target.y ≤ (physStep fast current target).y ∧
          (physStep fast current target).y ≤ max current.y target.y ∧
          |(physStep fast current target).y - current.y| ≤ |target.y - current.y|) ∧
        (min current.z target.z ≤ (physStep fast current target).z ∧
          (physStep fast current target).z ≤ max current.z target.z ∧
          |(physStep fast current target).z - current.z| ≤ |target.z - current.z|)) ∧
    (∀ (now : ℤ) (interval : ℚ) (g : Option String) (sb : Box4) (t : TrackerState),
        (matchedUpdate now interval g sb t).lockedBox =
          ⟨t.lockedBox.x + (sb.x - t.lockedBox.x) * (if interval > 300 then 0.5 else 0.4),
           t.lockedBox.y + (sb.y - t.lockedBox.y) * (if interval > 300 then 0.5 else 0.4),
           t.lockedBox.w + (sb.w - t.lockedBox.w) * (if interval > 300 then 0.5 else 0.4),
           t.lockedBox.h + (sb.h - t.lockedBox.h) * (if interval > 300 then 0.5 else 0.4)⟩) ∧
    (∀ (now : ℤ) (interval : ℚ) (g : Option String) (sb : Box4) (t : TrackerState),
        (min t.lockedBox.x sb.x ≤ (matchedUpdate now interval g sb t).lockedBox.x ∧
          (matchedUpdate now interval g sb t).lockedBox.x ≤ max t.lockedBox.x sb.x ∧
          |(matchedUpdate now interval g sb t).lockedBox.x - t.lockedBox.x| ≤ |sb.x - t.lockedBox.x|) ∧
        (min t.lockedBox.y sb.y ≤ (matchedUpdate now interval g sb t).lockedBox.y ∧
          (matchedUpdate now interval g sb t).lockedBox.y ≤ max t.lockedBox.y sb.y ∧
          |(matchedUpdate now interval g sb t).lockedBox.y - t.lockedBox.y| ≤ |sb.y - t.lockedBox.y|) ∧
        (min t.lockedBox.w sb.w ≤ (matchedUpdate now interval g sb t).lockedBox.w ∧
          (matchedUpdate now interval g sb t).lockedBox.w ≤ max t.lockedBox.w sb.w ∧
          |(matchedUpdate now interval g sb t).lockedBox.w - t.lockedBox.w| ≤ |sb.w - t.lockedBox.w|) ∧
        (min t.lockedBox.h sb.h ≤ (matchedUpdate now interval g sb t).lockedBox.h ∧
          (matchedUpdate now interval g sb t).lockedBox.h ≤ max t.lockedBox.h sb.h ∧
          |(matchedUpdate now interval g sb t).lockedBox.h - t.lockedBox.h| ≤ |sb.h - t.lockedBox.h|)) ∧
    (∀ (preds : List Detection) (sf : ℚ) (now : ℤ) (interval : ℚ)
        (mode : AnalysisMode) (st : SysState),
        handleWorkerPredictions preds sf now true interval mode st = (st, none)) := by
  have hs : ∀ fast : Bool, (0 : ℝ) ≤ (if fast then 0.9 else 0.2) ∧
      (if fast then 0.9 else 0.2 : ℝ) ≤ 1 := by
    intro fast; cases fast <;> norm_num
  have hl : ∀ interval : ℚ, (0 : ℚ) ≤ (if interval > 300 then 0.5 else 0.4) ∧
      (if interval > 300 then 0.5 else 0.4 : ℚ) ≤ 1 := by
    intro interval; by_cases h : interval > 300 <;> simp [h] <;> norm_num
  refine ⟨fun fast current target => rfl, ?_, fun now interval g sb t => rfl, ?_,
    fun preds sf now interval mode st => rfl⟩
  · intro fast current target
    simp only [physStep]
    exact ⟨lerp_no_overshoot _ _ _ (hs fast).1 (hs fast).2,
      lerp_no_overshoot _ _ _ (hs fast).1 (hs fast).2,
      lerp_no_overshoot _ _ _ (hs fast).1 (hs fast).2⟩
  · intro now interval g sb t
    simp only [matchedUpdate]
    exact ⟨lerp_no_overshoot _ _ _ (hl interval).1 (hl interval).2,
      lerp_no_overshoot _ _ _ (hl interval).1 (hl interval).2,
      lerp_no_overshoot _ _ _ (hl interval).1 (hl interval).2,
      lerp_no_overshoot _ _ _ (hl interval).1 (hl interval).2⟩

/-- C7 (counterexample): the claim as frozen has the smoothed bounding box
converging toward its target on every tick at a speed elevated under the
rapid-motion flag. In the source the box is lerped only on a batch match
(lines 372-376) with a factor chosen by cadence, handleWorkerPredictions
returns immediately when the flag is set (line 351), and a render tick never
touches the box. Concretely: with the flag set, a batch holding a matching
detection 100 units away leaves the tracker - box included - exactly
unchanged; at a 150 ms cadence a match moves the box x from 0 toward 10 to
0.4 of the gap, not the elevated 0.9; and a plain tick maps the box to
itself. -/
theorem motion_smoother_counterexample :
    (handleWorkerPredictions [⟨"person", 1, ⟨100, 100, 10, 10⟩, none⟩] 1 600 true 150
        AnalysisMode.AUTO
        ⟨[⟨1, "person", 0, 0, 1, ⟨0, 0, 10, 10⟩,
            ⟨⟨0, 0, -10⟩, ⟨0, 0, -10⟩, ⟨0, 0, 0⟩, 0.1⟩, 0, none⟩], [1], 2, ⟨"", 0⟩⟩ =
      (⟨[⟨1, "person", 0, 0, 1, ⟨0, 0, 10, 10⟩,
          ⟨⟨0, 0, -10⟩, ⟨0, 0, -10⟩, ⟨0, 0, 0⟩, 0.1⟩, 0, none⟩], [1], 2, ⟨"", 0⟩⟩,
        none)) ∧
    ((matchedUpdate 600 150 none ⟨10, 0, 0, 0⟩
        ⟨1, "person", 0, 0, 1, ⟨0, 0, 0, 0⟩,
          ⟨⟨0, 0, -10⟩, ⟨0, 0, -10⟩, ⟨0, 0, 0⟩, 0.1⟩, 0, none⟩).lockedBox.x = 4) ∧
    ((4 : ℚ) ≠ 0 + (10 - 0) * 0.9) ∧
    ((tickOne 400 true 1 1 1 1 75
        ⟨1, "person", 0, 0, 1, ⟨0, 0, 10, 10⟩,
          ⟨⟨0, 0, -10⟩, ⟨0, 0, -10⟩, ⟨0, 0, 0⟩, 0.1⟩, 0, none⟩).map
        TrackerState.lockedBox = some ⟨0, 0, 10, 10⟩) := by
  refine ⟨rfl, ?_, by norm_num, ?_⟩
  · show (0 : ℚ) + (10 - 0) * (if (150 : ℚ) > 300 then 0.5 else 0.4) = 4
    norm_num
  · simp only [tickOne]
    rw [if_neg (by norm_num)]
    rfl

/-- C5 (counterexample): the claim ties the 2000 ms debounce to the previous
*report*, but the source writes lastAnalysisTimeRef on every call that passes
the gate, reported or not. Trace: at t=10000 the signature "person" is
reported; at t=12100 the same signature passes the gate without a report
(refreshing the timestamp); at t=13000 the signature has changed and 3000 ms
have elapsed since the previous report, yet the event is suppressed. -/
theorem scene_change_debounce_counterexample :
    (checkSceneChange AnalysisMode.AUTO ["1"] ["person"] 10000 ⟨"", 0⟩).2.isSome = true ∧
    (checkSceneChange AnalysisMode.AUTO ["1"] ["person"] 10000 ⟨"", 0⟩).1 = ⟨"person", 10000⟩ ∧
    (checkSceneChange AnalysisMode.AUTO ["1"] ["person"] 12100 ⟨"person", 10000⟩).2 = none ∧
    (checkSceneChange AnalysisMode.AUTO ["1"] ["person"] 12100 ⟨"person", 10000⟩).1 =
      ⟨"person", 12100⟩ ∧
    (checkSceneChange AnalysisMode.AUTO ["1", "2"] ["person", "cup"] 13000
        ⟨"person", 12100⟩).2 = none ∧
    sceneSig ["person", "cup"] ≠ "person" ∧
    (2000 : ℤ) ≤ 13000 - 10000 := by
  decide

/-- C5 (amended): on each association pass, an event is emitted exactly when
at least 2000 ms have elapsed since the previous *evaluation* (any pass that
reached the signature comparison — such passes refresh the timestamp whether
or not they report), the sorted joined signature of the batch's accepted
detection classes differs from the last-reported one, and the analysis mode
is AUTO or DETAILED; the last-reported signature is replaced exactly when the
comparison runs and the signature differs. -/
theorem scene_change_debounce_amended (mode : AnalysisMode)
    (ids classes : List String) (now : ℤ) (st : SceneState) :
    ((checkSceneChange mode ids classes now st).2.isSome ↔
        (2000 ≤ now - st.lastAnalysisTime ∧ sceneSig classes ≠ st.lastObjectSet ∧
          (mode = AnalysisMode.AUTO ∨ mode = AnalysisMode.DETAILED))) ∧
    ((checkSceneChange mode ids classes now st).1.lastAnalysisTime =
        if 2000 ≤ now - st.lastAnalysisTime then now else st.lastAnalysisTime) ∧
    ((checkSceneChange mode ids classes now st).1.lastObjectSet =
        if 2000 ≤ now - st.lastAnalysisTime ∧ sceneSig classes ≠ st.lastObjectSet
        then sceneSig classes else st.lastObjectSet) := by
  unfold checkSceneChange sceneSig
  by_cases h1 : now - st.lastAnalysisTime < 2000
  · have h1' : ¬ (2000 : ℤ) ≤ now - st.lastAnalysisTime := not_le.mpr h1
    simp [h1, h1']
  · have h1' : (2000 : ℤ) ≤ now - st.lastAnalysisTime := not_lt.mp h1
    by_cases h2 : String.intercalate "," (sortStrings classes) ≠ st.lastObjectSet
    · by_cases h3 : mode = AnalysisMode.AUTO ∨ mode = AnalysisMode.DETAILED
      · simp [h1, h1', h2, h3]
      · simp [h1, h1', h2, h3]
    · simp [h1, h1', h2]

/-- C4: for a bounding box with positive height the estimator computes depth
as realHeight / boxHeightFraction / (2 * tan(FOV/2)) with realHeight taken
from the fixed per-class table (0.5 m default for unknown classes), clamps
the result into [1.5, 50] meters rather than rejecting it, and back-projects
the box center at that depth. -/
theorem geometry_depth_formula (bbox : Box4) (cls : String)
    (videoW videoH screenW screenH fov : ℝ) (hh : (0 : ℚ) < bbox.h) :
    ((calculate3DPosition bbox cls videoW videoH screenW screenH fov).z =
      -(max 1.5 (min 50.0
        ((((getRealWorldHeight cls : ℚ) : ℝ) /
            (((bbox.h : ℚ) : ℝ) *
                ((letterbox videoW videoH screenW screenH).renderH / videoH) / screenH)) /
          (2 * Real.tan (degToRad fov / 2)))))) ∧
    ((calculate3DPosition bbox cls videoW videoH screenW screenH fov).x =
      (((((bbox.x : ℚ) : ℝ) * ((letterbox videoW videoH screenW screenH).renderW / videoW) +
              (letterbox videoW videoH screenW screenH).offsetX) +
            (((bbox.w : ℚ) : ℝ) *
                ((letterbox videoW videoH screenW screenH).renderW / videoW)) / 2) / screenW * 2 - 1) *
        ((2 * |(calculate3DPosition bbox cls videoW videoH screenW screenH fov).z| *
            Real.tan (degToRad fov / 2)) * (screenW / screenH)) / 2) ∧
    ((calculate3DPosition bbox cls videoW videoH screenW screenH fov).y =
      (-(((((bbox.y : ℚ) : ℝ) * ((letterbox videoW videoH screenW screenH).renderH / videoH) +
              (letterbox videoW videoH screenW screenH).offsetY) +
            (((bbox.h : ℚ) : ℝ) *
                ((letterbox videoW videoH screenW screenH).renderH / videoH)) / 2) / screenH) * 2 + 1) *
        (2 * |(calculate3DPosition bbox cls videoW videoH screenW screenH fov).z| *
            Real.tan (degToRad fov / 2)) / 2) ∧
    getRealWorldHeight "person" = 1.70 ∧
    getRealWorldHeight "hand" = 0.20 ∧
    (∀ c : String, toLowerStr c ∉ realWorldHeightKeys → getRealWorldHeight c = 0.5) := by
  refine ⟨rfl, rfl, rfl, rfl, rfl, ?_⟩
  intro c hc
  simp only [realWorldHeightKeys, List.mem_cons, List.not_mem_nil, or_false, not_or] at hc
  obtain ⟨k1, k2, k3, k4, k5, k6, k7, k8, k9, k10, k11, k12, k13, k14, k15, k16, k17⟩ := hc
  simp only [getRealWorldHeight, if_neg k1, if_neg k2, if_neg k3, if_neg k4, if_neg k5,
    if_neg k6, if_neg k7, if_neg k8, if_neg k9, if_neg k10, if_neg k11, if_neg k12,
    if_neg k13, if_neg k14, if_neg k15, if_neg k16, if_neg k17]

/-- Witness for C4: a concrete positive-height box and a class name that is
absent from the table. -/
theorem geometry_depth_formula_witness :
    (0 : ℚ) < (⟨10, 20, 30, 40⟩ : Box4).h ∧
      toLowerStr "dragon" ∉ realWorldHeightKeys ∧
      getRealWorldHeight "dragon" = 0.5 :=
  ⟨by norm_num, by decide,
   (geometry_depth_formula ⟨10, 20, 30, 40⟩ "dragon" 1280 720 1280 720 75
       (by norm_num)).2.2.2.2.2 "dragon" (by decide)⟩

/-- C6: with the source's default 75° field of view, a person-class box
filling the full vertical viewport is estimated strictly closer than the
same box filling half the viewport height, the [1.5, 50] clamp
notwithstanding (the full-height estimate clamps up to 1.5 m, the
half-height estimate stays at 1.7/tan(37.5°) ≈ 2.2 m). -/
theorem geometry_monotone_depth :
    -(calculate3DPosition ⟨0, 0, 720, 720⟩ "person" 720 720 720 720 75).z <
      -(calculate3DPosition ⟨0, 0, 720, 360⟩ "person" 720 720 720 720 75).z := by
  have hlb : letterbox 720 720 720 720 = ⟨720, 720, 0, 0⟩ := by
    simp only [letterbox]
    rw [if_neg (lt_irrefl _)]
    norm_num
  have hz : ∀ b : Box4, (calculate3DPosition b "person" 720 720 720 720 75).z =
      -(max 1.5 (min 50.0 ((((getRealWorldHeight "person" : ℚ) : ℝ) /
          (((b.h : ℚ) : ℝ) * ((letterbox (720 : ℝ) 720 720 720).renderH / 720) / 720)) /
        (2 * Real.tan (degToRad 75 / 2))))) := fun b => rfl
  have hπ3 : (3 : ℝ) < Real.pi := Real.pi_gt_three
  have hθpos : (0 : ℝ) < degToRad 75 / 2 := by
    simp only [degToRad]; positivity
  have hθeq : degToRad 75 / 2 = Real.pi * (5 / 24) := by
    simp only [degToRad]; ring
  have hθlt4 : degToRad 75 / 2 < Real.pi / 4 := by rw [hθeq]; nlinarith
  have hθlt2 : degToRad 75 / 2 < Real.pi / 2 := by rw [hθeq]; nlinarith
  have hT1 : Real.tan (degToRad 75 / 2) < 1 := by
    calc Real.tan (degToRad 75 / 2) < Real.tan (Real.pi / 4) :=
          Real.tan_lt_tan_of_nonneg_of_lt_pi_div_two (le_of_lt hθpos) (by linarith) hθlt4
      _ = 1 := Real.tan_pi_div_four
  have hTgt : (5 / 8 : ℝ) < Real.tan (degToRad 75 / 2) := by
    have h1 : degToRad 75 / 2 < Real.tan (degToRad 75 / 2) := Real.lt_tan hθpos hθlt2
    have h2 : (5 / 8 : ℝ) < degToRad 75 / 2 := by rw [hθeq]; nlinarith
    linarith
  have hTpos : (0 : ℝ) < Real.tan (degToRad 75 / 2) := by linarith
  rw [hz ⟨0, 0, 720, 720⟩, hz ⟨0, 0, 720, 360⟩, neg_neg, neg_neg, hlb]
  have hr : ((getRealWorldHeight "person" : ℚ) : ℝ) = 1.7 := by
    norm_num [show getRealWorldHeight "person" = (1.70 : ℚ) from rfl]
  have hf1 : (((⟨0, 0, 720, 720⟩ : Box4).h : ℚ) : ℝ) *
      ((Letterbox.mk (720 : ℝ) 720 0 0).renderH / 720) / 720 = 1 := by
    norm_num
  have hf2 : (((⟨0, 0, 720, 360⟩ : Box4).h : ℚ) : ℝ) *
      ((Letterbox.mk (720 : ℝ) 720 0 0).renderH / 720) / 720 = 1 / 2 := by
    norm_num
  rw [hr, hf1, hf2]
  have hb' : (1.7 : ℝ) / (1 / 2) / (2 * Real.tan (degToRad 75 / 2)) =
      1.7 / Real.tan (degToRad 75 / 2) := by
    field_simp
    ring
  have ha : (1.7 : ℝ) / 1 / (2 * Real.tan (degToRad 75 / 2)) < 1.5 := by
    rw [div_one, div_lt_iff (by linarith : (0 : ℝ) < 2 * Real.tan (degToRad 75 / 2))]
    nlinarith
  have hb17 : (1.7 : ℝ) < 1.7 / Real.tan (degToRad 75 / 2) := by
    rw [lt_div_iff hTpos]; nlinarith
  have hb50 : (1.7 : ℝ) / Real.tan (degToRad 75 / 2) < 50 := by
    rw [div_lt_iff hTpos]; nlinarith
  rw [hb']
  have hTpos2 : (0 : ℝ) < 2 * Real.tan (degToRad 75 / 2) := by linarith
  have h50a : (1.7 : ℝ) / 1 / (2 * Real.tan (degToRad 75 / 2)) ≤ 50.0 := by
    rw [div_one, div_le_iff₀ hTpos2]; nlinarith
  have h15a : (1.7 : ℝ) / 1 / (2 * Real.tan (degToRad 75 / 2)) ≤ 1.5 := by
    rw [div_one, div_le_iff₀ hTpos2]; nlinarith
  have h50b : (1.7 : ℝ) / Real.tan (degToRad 75 / 2) ≤ 50.0 := by
    rw [div_le_iff₀ hTpos]; nlinarith
  have h15b : (1.5 : ℝ) ≤ 1.7 / Real.tan (degToRad 75 / 2) := by
    rw [le_div_iff₀ hTpos]; nlinarith
  rw [min_eq_right h50a, max_eq_left h15a, min_eq_right h50b, max_eq_right h15b]
  rw [lt_div_iff₀ hTpos]; nlinarith

/-- When no class-matching candidate beats the running best distance, the
candidate scan leaves the accumulator unchanged. -/
theorem foldl_bestStep_no_improve (ts : List TrackerState) (cls : String)
    (sb : Box4) (l : List ℕ) :
    ∀ (b : ℝ) (r : Option ℕ),
      (∀ u ∈ l, ∀ u', findTracker ts u = some u' → u'.cls = cls →
          b ≤ cornerDist sb u'.lockedBox) →
      l.foldl (bestStep ts cls sb) (b, r) = (b, r) := by
  induction l with
  | nil => intro b r _; rfl
  | cons u l ih =>
      intro b r h
      have hstep : bestStep ts cls sb (b, r) u = (b, r) := by
        simp only [bestStep]
        rcases hft : findTracker ts u with _ | t
        · rfl
        · dsimp only
          by_cases hcls : t.cls ≠ cls
          · rw [if_pos hcls]
          · rw [if_neg hcls]
            push_neg at hcls
            have hge := h u (List.mem_cons_self u l) t hft hcls
            rw [if_neg (not_lt.mpr hge)]
      rw [List.foldl_cons, hstep]
      exact ih b r (fun v hv u' hf hc => h v (List.mem_cons_of_mem u hv) u' hf hc)

/-- When some class-matching candidate beats the running best distance, the
candidate scan returns the first candidate attaining the minimal distance:
it is globally minimal, every candidate strictly before it is strictly
farther, and the accumulator ends at exactly that distance and id. -/
theorem foldl_bestStep_improve (ts : List TrackerState) (cls : String)
    (sb : Box4) (l : List ℕ) :
    ∀ (b : ℝ) (r : Option ℕ),
      (∃ u ∈ l, ∃ u', findTracker ts u = some u' ∧ u'.cls = cls ∧
          cornerDist sb u'.lockedBox < b) →
      ∃ tid t l1 l2,
        l = l1 ++ tid :: l2 ∧
        findTracker ts tid = some t ∧ t.cls = cls ∧
        cornerDist sb t.lockedBox < b ∧
        (∀ u ∈ l, ∀ u', findTracker ts u = some u' → u'.cls = cls →
            cornerDist sb t.lockedBox ≤ cornerDist sb u'.lockedBox) ∧
        (∀ u ∈ l1, ∀ u', findTracker ts u = some u' → u'.cls = cls →
            cornerDist sb t.lockedBox < cornerDist sb u'.lockedBox) ∧
        l.foldl (bestStep ts cls sb) (b, r) = (cornerDist sb t.lockedBox, some tid) := by
  induction l with
  | nil =>
      intro b r hex
      obtain ⟨u, hu, -⟩ := hex
      exact absurd hu (List.not_mem_nil u)
  | cons u l ih =>
      intro b r hex
      rcases hft : findTracker ts u with _ | u'
      · -- head candidate absent from the registry: the step is a no-op
        have hstep : bestStep ts cls sb (b, r) u = (b, r) := by
          simp only [bestStep]; rw [hft]
        have hex' : ∃ v ∈ l, ∃ w, findTracker ts v = some w ∧ w.cls = cls ∧
            cornerDist sb w.lockedBox < b := by
          obtain ⟨v, hv, w, hfw, hcw, hdw⟩ := hex
          rcases List.mem_cons.mp hv with rfl | hv'
          · rw [hft] at hfw; exact absurd hfw (by simp)
          · exact ⟨v, hv', w, hfw, hcw, hdw⟩
        obtain ⟨tid, t, l1, l2, heq, hf, hc, hlt, hmin, hstrict, hfold⟩ := ih b r hex'
        refine ⟨tid, t, u :: l1, l2, by rw [heq]; rfl, hf, hc, hlt, ?_, ?_, ?_⟩
        · intro x hx w hfw hcw
          rcases List.mem_cons.mp hx with rfl | hx'
          · rw [hft] at hfw; exact absurd hfw (by simp)
          · exact hmin x hx' w hfw hcw
        · intro x hx w hfw hcw
          rcases List.mem_cons.mp hx with rfl | hx'
          · rw [hft] at hfw; exact absurd hfw (by simp)
          · exact hstrict x hx' w hfw hcw
        · rw [List.foldl_cons, hstep, hfold]
      · by_cases hcls : u'.cls = cls
        · by_cases hd : cornerDist sb u'.lockedBox < b
          · -- the head improves the accumulator
            have hstep : bestStep ts cls sb (b, r) u =
                (cornerDist sb u'.lockedBox, some u) := by
              simp only [bestStep]; rw [hft]
              dsimp only
              rw [if_neg (by simp [hcls]), if_pos hd]
            by_cases himp : ∃ v ∈ l, ∃ w, findTracker ts v = some w ∧ w.cls = cls ∧
                cornerDist sb w.lockedBox < cornerDist sb u'.lockedBox
            · obtain ⟨tid, t, l1, l2, heq, hf, hc, hlt, hmin, hstrict, hfold⟩ :=
                ih (cornerDist sb u'.lockedBox) (some u) himp
              refine ⟨tid, t, u :: l1, l2, by rw [heq]; rfl, hf, hc,
                lt_trans hlt hd, ?_, ?_, ?_⟩
              · intro x hx w hfw hcw
                rcases List.mem_cons.mp hx with rfl | hx'
                · rw [hft] at hfw
                  obtain rfl : u' = w := by injection hfw
                  exact le_of_lt hlt
                · exact hmin x hx' w hfw hcw
              · intro x hx w hfw hcw
                rcases List.mem_cons.mp hx with rfl | hx'
                · rw [hft] at hfw
                  obtain rfl : u' = w := by injection hfw
                  exact hlt
                · exact hstrict x hx' w hfw hcw
              · rw [List.foldl_cons, hstep, hfold]
            · push_neg at himp
              have himp' : ∀ v ∈ l, ∀ w, findTracker ts v = some w → w.cls = cls →
                  cornerDist sb u'.lockedBox ≤ cornerDist sb w.lockedBox := himp
              refine ⟨u, u', [], l, rfl, hft, hcls, hd, ?_, ?_, ?_⟩
              · intro x hx w hfw hcw
                rcases List.mem_cons.mp hx with rfl | hx'
                · rw [hft] at hfw
                  obtain rfl : u' = w := by injection hfw
                  exact le_refl _
                · exact himp' x hx' w hfw hcw
              · intro x hx; exact absurd hx (List.not_mem_nil x)
              · rw [List.foldl_cons, hstep,
                  foldl_bestStep_no_improve ts cls sb l _ _ himp']
          · -- the head matches the class but does not beat the running best
            have hstep : bestStep ts cls sb (b, r) u = (b, r) := by
              simp only [bestStep]; rw [hft]
              dsimp only
              rw [if_neg (by simp [hcls]), if_neg hd]
            have hble : b ≤ cornerDist sb u'.lockedBox := not_lt.mp hd
            have hex' : ∃ v ∈ l, ∃ w, findTracker ts v = some w ∧ w.cls = cls ∧
                cornerDist sb w.lockedBox < b := by
              obtain ⟨v, hv, w, hfw, hcw, hdw⟩ := hex
              rcases List.mem_cons.mp hv with rfl | hv'
              · rw [hft] at hfw
                obtain rfl : u' = w := by injection hfw
                exact absurd hdw hd
              · exact ⟨v, hv', w, hfw, hcw, hdw⟩
            obtain ⟨tid, t, l1, l2, heq, hf, hc, hlt, hmin, hstrict, hfold⟩ := ih b r hex'
            refine ⟨tid, t, u :: l1, l2, by rw [heq]; rfl, hf, hc, hlt, ?_, ?_, ?_⟩
            · intro x hx w hfw hcw
              rcases List.mem_cons.mp hx with rfl | hx'
              · rw [hft] at hfw
                obtain rfl : u' = w := by injection hfw
                exact le_of_lt (lt_of_lt_of_le hlt hble)
              · exact hmin x hx' w hfw hcw
            · intro x hx w hfw hcw
              rcases List.mem_cons.mp hx with rfl | hx'
              · rw [hft] at hfw
                obtain rfl : u' = w := by injection hfw
                exact lt_of_lt_of_le hlt hble
              · exact hstrict x hx' w hfw hcw
            · rw [List.foldl_cons, hstep, hfold]
        · -- the head is of a different class: skipped
          have hstep : bestStep ts cls sb (b, r) u = (b, r) := by
            simp only [bestStep]; rw [hft]
            dsimp only
            rw [if_pos hcls]
          have hex' : ∃ v ∈ l, ∃ w, findTracker ts v = some w ∧ w.cls = cls ∧
              cornerDist sb w.lockedBox < b := by
            obtain ⟨v, hv, w, hfw, hcw, hdw⟩ := hex
            rcases List.mem_cons.mp hv with rfl | hv'
            · rw [hft] at hfw
              obtain rfl : u' = w := by injection hfw
              exact absurd hcw hcls
            · exact ⟨v, hv', w, hfw, hcw, hdw⟩
          obtain ⟨tid, t, l1, l2, heq, hf, hc, hlt, hmin, hstrict, hfold⟩ := ih b r hex'
          refine ⟨tid, t, u :: l1, l2, by rw [heq]; rfl, hf, hc, hlt, ?_, ?_, ?_⟩
          · intro x hx w hfw hcw
            rcases List.mem_cons.mp hx with rfl | hx'
            · rw [hft] at hfw
              obtain rfl : u' = w := by injection hfw
              exact absurd hcw hcls
            · exact hmin x hx' w hfw hcw
          · intro x hx w hfw hcw
            rcases List.mem_cons.mp hx with rfl | hx'
            · rw [hft] at hfw
              obtain rfl : u' = w := by injection hfw
              exact absurd hcw hcls
            · exact hstrict x hx' w hfw hcw
          · rw [List.foldl_cons, hstep, hfold]

/-- C1: a detection passing the confidence floor has its box scaled
componentwise by the batch scaleFactor; candidates are the still-available
trackers of equal class; if some candidate lies strictly inside the 200-unit
gate, the detection updates the first candidate attaining the minimal
top-left-corner Euclidean distance (every earlier candidate is strictly
farther, every candidate at least as far); if no same-class candidate is
strictly inside the gate, a new track is created with the fresh id nextId,
seeded with the raw scaled box, the far-away placeholder physics position
(0, 0, -10) and opacity 1.0. Track ids are allocated from 1 upward. -/
theorem associator_gate_matching (now : ℤ) (interval sf : ℚ)
    (st : AssocState) (p : Detection)
    (hscore : ¬ p.score < 0.2)
    (hfresh : ∀ t ∈ st.trackers, t.id < st.nextId)
    (hpos : ∀ t ∈ st.trackers, 0 < t.id) :
    scaleBox sf p.bbox =
      ⟨p.bbox.x * sf, p.bbox.y * sf, p.bbox.w * sf, p.bbox.h * sf⟩ ∧
    ((∀ tid ∈ st.avail, ∀ t, findTracker st.trackers tid = some t →
        t.cls = p.cls → (200 : ℝ) ≤ cornerDist (scaleBox sf p.bbox) t.lockedBox) →
      processPred now interval sf st p =
        { st with
          trackers := st.trackers ++
            [newTracker now st.nextId p.cls p.gesture (scaleBox sf p.bbox)],
          labels := st.labels ++ [st.nextId],
          activeIds := st.activeIds ++ [st.nextId],
          classes := st.classes ++ [p.cls],
          nextId := st.nextId + 1 } ∧
      (∀ t ∈ st.trackers, t.id ≠ st.nextId) ∧
      (newTracker now st.nextId p.cls p.gesture (scaleBox sf p.bbox)).opacity = 1.0 ∧
      (newTracker now st.nextId p.cls p.gesture (scaleBox sf p.bbox)).physics.current =
        ⟨0, 0, -10⟩ ∧
      (newTracker now st.nextId p.cls p.gesture (scaleBox sf p.bbox)).lockedBox =
        scaleBox sf p.bbox) ∧
    ((∃ tid ∈ st.avail, ∃ t, findTracker st.trackers tid = some t ∧
        t.cls = p.cls ∧ cornerDist (scaleBox sf p.bbox) t.lockedBox < 200) →
      ∃ tid t l1 l2,
        st.avail = l1 ++ tid :: l2 ∧
        findTracker st.trackers tid = some t ∧ t.cls = p.cls ∧
        cornerDist (scaleBox sf p.bbox) t.lockedBox < 200 ∧
        (∀ u ∈ st.avail, ∀ u', findTracker st.trackers u = some u' →
            u'.cls = p.cls →
            cornerDist (scaleBox sf p.bbox) t.lockedBox ≤
              cornerDist (scaleBox sf p.bbox) u'.lockedBox) ∧
        (∀ u ∈ l1, ∀ u', findTracker st.trackers u = some u' →
            u'.cls = p.cls →
            cornerDist (scaleBox sf p.bbox) t.lockedBox <
              cornerDist (scaleBox sf p.bbox) u'.lockedBox) ∧
        processPred now interval sf st p =
          { st with
            trackers := st.trackers.map
              (fun u => if u.id = tid then
                matchedUpdate now interval p.gesture (scaleBox sf p.bbox) u else u),
            avail := st.avail.filter (fun u => u ≠ tid),
            activeIds := st.activeIds ++ [tid],
            classes := st.classes ++ [p.cls] }) := by
  refine ⟨rfl, ?_, ?_⟩
  · intro hgate
    have hfold := foldl_bestStep_no_improve st.trackers p.cls (scaleBox sf p.bbox)
      st.avail 200 none hgate
    have hfb : (findBest st.trackers st.avail p.cls (scaleBox sf p.bbox)).2 = none := by
      unfold findBest; rw [hfold]
    refine ⟨?_, fun t ht => ne_of_lt (hfresh t ht), rfl, rfl, rfl⟩
    simp only [processPred]
    rw [if_neg hscore, hfb]
  · intro himp
    obtain ⟨tid, t, l1, l2, heq, hf, hc, hlt, hmin, hstrict, hfold⟩ :=
      foldl_bestStep_improve st.trackers p.cls (scaleBox sf p.bbox) st.avail 200 none himp
    have hfb : (findBest st.trackers st.avail p.cls (scaleBox sf p.bbox)).2 = some tid := by
      unfold findBest; rw [hfold]
    have htmem : t ∈ st.trackers := List.mem_of_find?_eq_some hf
    have htid : t.id = tid := by simpa using List.find?_some hf
    have htid0 : ¬ tid = 0 := by
      have h0 := hpos t htmem
      omega
    refine ⟨tid, t, l1, l2, heq, hf, hc, hlt, hmin, hstrict, ?_⟩
    simp only [processPred]
    rw [if_neg hscore, hfb]
    dsimp only
    rw [if_neg htid0]

/-- Witness for C1: an empty registry forces creation of track 1; a registry
holding one person-track at distance 0 forces a match onto it. -/
theorem associator_gate_matching_witness :
    (processPred 500 150 2 ⟨[], [], [], [], [], 1⟩ ⟨"person", 1, ⟨1, 2, 3, 4⟩, none⟩ =
      ⟨[newTracker 500 1 "person" none (scaleBox 2 ⟨1, 2, 3, 4⟩)], [1], [], [1],
        ["person"], 2⟩) ∧
    (∃ tid t l1 l2,
      ([1] : List ℕ) = l1 ++ tid :: l2 ∧
      findTracker [newTracker 0 1 "person" none ⟨0, 0, 10, 10⟩] tid = some t ∧
      t.cls = "person" ∧
      cornerDist (scaleBox 1 ⟨0, 0, 10, 10⟩) t.lockedBox < 200 ∧
      (∀ u ∈ ([1] : List ℕ), ∀ u',
          findTracker [newTracker 0 1 "person" none ⟨0, 0, 10, 10⟩] u = some u' →
          u'.cls = "person" →
          cornerDist (scaleBox 1 ⟨0, 0, 10, 10⟩) t.lockedBox ≤
            cornerDist (scaleBox 1 ⟨0, 0, 10, 10⟩) u'.lockedBox) ∧
      (∀ u ∈ l1, ∀ u',
          findTracker [newTracker 0 1 "person" none ⟨0, 0, 10, 10⟩] u = some u' →
          u'.cls = "person" →
          cornerDist (scaleBox 1 ⟨0, 0, 10, 10⟩) t.lockedBox <
            cornerDist (scaleBox 1 ⟨0, 0, 10, 10⟩) u'.lockedBox) ∧
      processPred 600 150 1
          ⟨[newTracker 0 1 "person" none ⟨0, 0, 10, 10⟩], [1], [1], [], [], 2⟩
          ⟨"person", 1, ⟨0, 0, 10, 10⟩, none⟩ =
        { (⟨[newTracker 0 1 "person" none ⟨0, 0, 10, 10⟩], [1], [1], [], [],
              2⟩ : AssocState) with
          trackers := [newTracker 0 1 "person" none ⟨0, 0, 10, 10⟩].map
            (fun u => if u.id = tid then
              matchedUpdate 600 150 none (scaleBox 1 ⟨0, 0, 10, 10⟩) u else u),
          avail := [1].filter (fun u => u ≠ tid),
          activeIds := [] ++ [tid],
          classes := [] ++ ["person"] }) := by
  constructor
  · exact ((associator_gate_matching 500 150 2 ⟨[], [], [], [], [], 1⟩
      ⟨"person", 1, ⟨1, 2, 3, 4⟩, none⟩ (by norm_num)
      (fun t ht => absurd ht (List.not_mem_nil t))
      (fun t ht => absurd ht (List.not_mem_nil t))).2.1
      (fun tid h => absurd h (List.not_mem_nil tid))).1
  · have hd0 : cornerDist (scaleBox 1 ⟨0, 0, 10, 10⟩) (⟨0, 0, 10, 10⟩ : Box4) = 0 := by
      unfold cornerDist scaleBox
      norm_num [Real.sqrt_zero]
    have hc1 : cornerDist (scaleBox 1 ⟨0, 0, 10, 10⟩)
        (newTracker 0 1 "person" none ⟨0, 0, 10, 10⟩).lockedBox < 200 := by
      rw [show (newTracker 0 1 "person" none ⟨0, 0, 10, 10⟩).lockedBox =
        (⟨0, 0, 10, 10⟩ : Box4) from rfl, hd0]
      norm_num
    exact (associator_gate_matching 600 150 1
      ⟨[newTracker 0 1 "person" none ⟨0, 0, 10, 10⟩], [1], [1], [], [], 2⟩
      ⟨"person", 1, ⟨0, 0, 10, 10⟩, none⟩ (by norm_num)
      (by
        intro t ht
        rw [List.mem_singleton] at ht
        subst ht
        norm_num [newTracker])
      (by
        intro t ht
        rw [List.mem_singleton] at ht
        subst ht
        norm_num [newTracker])).2.2
      ⟨1, by simp, newTracker 0 1 "person" none ⟨0, 0, 10, 10⟩, rfl, rfl, hc1⟩

/-- Unfolding equation of tickOne: decayed opacity and the eviction test. -/
theorem tickOne_eq (now : ℤ) (fast : Bool) (vw vh sw sh fov : ℝ)
    (t : TrackerState) :
    tickOne now fast vw vh sw sh fov t =
      if (if 500 < now - t.lastSeenTime then t.opacity - 0.05 else t.opacity) < 0.05 ∧
          500 < now - t.lastSeenTime then none
      else some { t with
        physics :=
          { current := physStep fast t.physics.current
              (calculate3DPosition t.lockedBox t.cls vw vh sw sh fov),
            target := calculate3DPosition t.lockedBox t.cls vw vh sw sh fov,
            velocity := t.physics.velocity, scale := t.physics.scale },
        opacity := if 500 < now - t.lastSeenTime then t.opacity - 0.05 else t.opacity,
        scanProgress := scanStep t.scanProgress } := rfl

/-- Opacity evolution of one tick, as a total equation. -/
theorem tickOne_opacity (now : ℤ) (fast : Bool) (vw vh sw sh fov : ℝ)
    (t : TrackerState) :
    (tickOne now fast vw vh sw sh fov t).map TrackerState.opacity =
      if 500 < now - t.lastSeenTime then
        (if t.opacity - 0.05 < 0.05 then none else some (t.opacity - 0.05))
      else some t.opacity := by
  rw [tickOne_eq]
  by_cases hl : 500 < now - t.lastSeenTime
  · by_cases ho : t.opacity - 0.05 < 0.05
    · simp [hl, ho]
    · simp [hl, ho]
  · simp [hl]

/-- A tracker surviving a tick keeps its identity, class, last-seen time and
box, and carries the decayed opacity. -/
theorem tickOne_fields (now : ℤ) (fast : Bool) (vw vh sw sh fov : ℝ)
    (t t' : TrackerState) (h : tickOne now fast vw vh sw sh fov t = some t') :
    t'.id = t.id ∧ t'.cls = t.cls ∧ t'.lastSeenTime = t.lastSeenTime ∧
      t'.lockedBox = t.lockedBox ∧
      t'.opacity = (if 500 < now - t.lastSeenTime then t.opacity - 0.05 else t.opacity) := by
  rw [tickOne_eq] at h
  by_cases hc : (if 500 < now - t.lastSeenTime then t.opacity - 0.05 else t.opacity) < 0.05 ∧
      500 < now - t.lastSeenTime
  · rw [if_pos hc] at h
    exact absurd h (by simp)
  · rw [if_neg hc] at h
    have h2 := Option.some.inj h
    subst h2
    exact ⟨rfl, rfl, rfl, rfl, rfl⟩

/-- A lost tracker whose decayed opacity falls below 0.05 is evicted. -/
theorem tickOne_evicts (now : ℤ) (fast : Bool) (vw vh sw sh fov : ℝ)
    (t : TrackerState) (hl : 500 < now - t.lastSeenTime)
    (ho : t.opacity - 0.05 < 0.05) :
    tickOne now fast vw vh sw sh fov t = none := by
  rw [tickOne_eq, if_pos ⟨by rw [if_pos hl]; exact ho, hl⟩]

/-- A tracker seen within the last 500 ms survives the tick with its opacity
unchanged. -/
theorem tickOne_not_lost (now : ℤ) (fast : Bool) (vw vh sw sh fov : ℝ)
    (t : TrackerState) (hl : ¬ 500 < now - t.lastSeenTime) :
    ∃ t', tickOne now fast vw vh sw sh fov t = some t' ∧ t'.opacity = t.opacity := by
  rw [tickOne_eq]
  have hc : ¬ ((if 500 < now - t.lastSeenTime then t.opacity - 0.05 else t.opacity) < 0.05 ∧
      500 < now - t.lastSeenTime) := fun hcc => hl hcc.2
  rw [if_neg hc]
  exact ⟨_, rfl, by simp [hl]⟩

/-- Registry membership after a tick is survival of a registry member. -/
theorem uvp_trackers_mem (now : ℤ) (fast : Bool) (vw vh sw sh fov : ℝ)
    (lidar : Bool) (sel : ℕ → Bool) (st : SysState) (u : TrackerState) :
    u ∈ (updateVisualsAndPhysics now fast vw vh sw sh fov lidar sel st).1.trackers ↔
      ∃ v ∈ st.trackers, tickOne now fast vw vh sw sh fov v = some u := by
  simp only [updateVisualsAndPhysics, List.filterMap_map, List.mem_filterMap]
  constructor
  · rintro ⟨v, hv, hvv⟩
    exact ⟨v, hv, hvv⟩
  · rintro ⟨v, hv, hvv⟩
    exact ⟨v, hv, hvv⟩

/-- Every output entry of a tick is the entry of a surviving tracker. -/
theorem uvp_output_mem (now : ℤ) (fast : Bool) (vw vh sw sh fov : ℝ)
    (lidar : Bool) (sel : ℕ → Bool) (st : SysState) (o : TrackedObject)
    (ho : o ∈ (updateVisualsAndPhysics now fast vw vh sw sh fov lidar sel st).2) :
    ∃ t' ∈ (updateVisualsAndPhysics now fast vw vh sw sh fov lidar sel st).1.trackers,
      o = entryOf now lidar sel t' := by
  have hperm := List.mergeSort_perm
    (((st.trackers.map (fun t => (t.id, tickOne now fast vw vh sw sh fov t))).filterMap
      (fun x => x.2)).map (entryOf now lidar sel))
    (fun a b => decide (b.position3D.z ≤ a.position3D.z))
  have ho' : o ∈ ((st.trackers.map
      (fun t => (t.id, tickOne now fast vw vh sw sh fov t))).filterMap
        (fun x => x.2)).map (entryOf now lidar sel) := hperm.mem_iff.mp ho
  obtain ⟨t', ht', rfl⟩ := List.mem_map.mp ho'
  exact ⟨t', ht', rfl⟩

/-- The matched update never changes a tracker's id. -/
theorem matchedUpdate_id (now : ℤ) (interval : ℚ) (g : Option String)
    (sb : Box4) (t : TrackerState) :
    (matchedUpdate now interval g sb t).id = t.id := rfl

/-- One association step keeps all registry ids below the id counter, never
resurrects a given retired id below the counter, and never decreases the
counter. -/
theorem processPred_preserves (dead : ℕ) (now : ℤ) (interval sf : ℚ)
    (a : AssocState) (p : Detection)
    (h1 : ∀ u ∈ a.trackers, u.id < a.nextId)
    (h2 : ∀ u ∈ a.trackers, u.id ≠ dead)
    (h3 : dead < a.nextId) :
    (∀ u ∈ (processPred now interval sf a p).trackers,
        u.id < (processPred now interval sf a p).nextId) ∧
    (∀ u ∈ (processPred now interval sf a p).trackers, u.id ≠ dead) ∧
    dead < (processPred now interval sf a p).nextId := by
  by_cases hs : p.score < 0.2
  · simp only [processPred, if_pos hs]
    exact ⟨h1, h2, h3⟩
  · simp only [processPred, if_neg hs]
    rcases hfb : (findBest a.trackers a.avail p.cls (scaleBox sf p.bbox)).2 with _ | tid
    · -- creation
      dsimp only
      refine ⟨?_, ?_, ?_⟩
      · intro u hu
        rcases List.mem_append.mp hu with hu' | hu'
        · have hlt := h1 u hu'
          show u.id < a.nextId + 1
          omega
        · rw [List.mem_singleton] at hu'
          subst hu'
          show a.nextId < a.nextId + 1
          omega
      · intro u hu
        rcases List.mem_append.mp hu with hu' | hu'
        · exact h2 u hu'
        · rw [List.mem_singleton] at hu'
          subst hu'
          show a.nextId ≠ dead
          omega
      · show dead < a.nextId + 1
        omega
    · dsimp only
      by_cases h0 : tid = 0
      · rw [if_pos h0]
        refine ⟨?_, ?_, ?_⟩
        · intro u hu
          rcases List.mem_append.mp hu with hu' | hu'
          · have hlt := h1 u hu'
            show u.id < a.nextId + 1
            omega
          · rw [List.mem_singleton] at hu'
            subst hu'
            show a.nextId < a.nextId + 1
            omega
        · intro u hu
          rcases List.mem_append.mp hu with hu' | hu'
          · exact h2 u hu'
          · rw [List.mem_singleton] at hu'
            subst hu'
            show a.nextId ≠ dead
            omega
        · show dead < a.nextId + 1
          omega
      · rw [if_neg h0]
        refine ⟨?_, ?_, h3⟩
        · intro u hu
          obtain ⟨v, hv, rfl⟩ := List.mem_map.mp hu
          by_cases he : v.id = tid
          · rw [if_pos he, matchedUpdate_id]
            exact h1 v hv
          · rw [if_neg he]
            exact h1 v hv
        · intro u hu
          obtain ⟨v, hv, rfl⟩ := List.mem_map.mp hu
          by_cases he : v.id = tid
          · rw [if_pos he, matchedUpdate_id]
            exact h2 v hv
          · rw [if_neg he]
            exact h2 v hv

/-- The invariant of processPred_preserves extends along a whole batch. -/
theorem foldl_processPred_preserves (dead : ℕ) (now : ℤ) (interval sf : ℚ)
    (preds : List Detection) :
    ∀ a : AssocState,
      (∀ u ∈ a.trackers, u.id < a.nextId) →
      (∀ u ∈ a.trackers, u.id ≠ dead) →
      dead < a.nextId →
      (∀ u ∈ (preds.foldl (processPred now interval sf) a).trackers,
          u.id < (preds.foldl (processPred now interval sf) a).nextId) ∧
      (∀ u ∈ (preds.foldl (processPred now interval sf) a).trackers, u.id ≠ dead) ∧
      dead < (preds.foldl (processPred now interval sf) a).nextId := by
  induction preds with
  | nil => intro a h1 h2 h3; exact ⟨h1, h2, h3⟩
  | cons p preds ih =>
      intro a h1 h2 h3
      rw [List.foldl_cons]
      obtain ⟨g1, g2, g3⟩ := processPred_preserves dead now interval sf a p h1 h2 h3
      exact ih _ g1 g2 g3

/-- One event (batch or tick) keeps all registry ids below the counter and
never resurrects a retired id below the counter. -/
theorem applyEvent_preserves (dead : ℕ) (st : SysState) (e : Event)
    (h1 : ∀ u ∈ st.trackers, u.id < st.nextId)
    (h2 : ∀ u ∈ st.trackers, u.id ≠ dead)
    (h3 : dead < st.nextId) :
    (∀ u ∈ (applyEvent st e).trackers, u.id < (applyEvent st e).nextId) ∧
    (∀ u ∈ (applyEvent st e).trackers, u.id ≠ dead) ∧
    dead < (applyEvent st e).nextId := by
  cases e with
  | batch b =>
      simp only [applyEvent, handleWorkerPredictions]
      by_cases hm : b.movingFast
      · rw [if_pos hm]
        exact ⟨h1, h2, h3⟩
      · rw [if_neg hm]
        dsimp only
        exact foldl_processPred_preserves dead b.now b.interval b.scaleFactor b.preds
          ⟨st.trackers, st.labels, st.trackers.map (fun t => t.id), [], [], st.nextId⟩
          h1 h2 h3
  | tick ti =>
      have hmem : ∀ u, u ∈ (applyEvent st (Event.tick ti)).trackers →
          ∃ v ∈ st.trackers,
            tickOne ti.now ti.movingFast ti.videoW ti.videoH ti.screenW ti.screenH
              ti.fov v = some u := by
        intro u hu
        exact (uvp_trackers_mem ti.now ti.movingFast ti.videoW ti.videoH ti.screenW
          ti.screenH ti.fov ti.lidar ti.sel st u).mp hu
      have hnext : (applyEvent st (Event.tick ti)).nextId = st.nextId := rfl
      refine ⟨?_, ?_, by rw [hnext]; exact h3⟩
      · intro u hu
        obtain ⟨v, hv, hvv⟩ := hmem u hu
        have hid := (tickOne_fields _ _ _ _ _ _ _ v u hvv).1
        rw [hnext, hid]
        exact h1 v hv
      · intro u hu
        obtain ⟨v, hv, hvv⟩ := hmem u hu
        have hid := (tickOne_fields _ _ _ _ _ _ _ v u hvv).1
        rw [hid]
        exact h2 v hv

/-- The invariant extends along any event sequence. -/
theorem run_preserves (dead : ℕ) (evs : List Event) :
    ∀ st : SysState,
      (∀ u ∈ st.trackers, u.id < st.nextId) →
      (∀ u ∈ st.trackers, u.id ≠ dead) →
      dead < st.nextId →
      (∀ u ∈ (run st evs).trackers, u.id < (run st evs).nextId) ∧
      (∀ u ∈ (run st evs).trackers, u.id ≠ dead) ∧
      dead < (run st evs).nextId := by
  induction evs with
  | nil => intro st h1 h2 h3; exact ⟨h1, h2, h3⟩
  | cons e evs ih =>
      intro st h1 h2 h3
      have hstep := applyEvent_preserves dead st e h1 h2 h3
      exact ih (applyEvent st e) hstep.1 hstep.2.1 hstep.2.2

/-- Iterated ticks of a dead tracker stay dead. -/
theorem tickRun_none (ts : List TickInput) : tickRun ts none = none := by
  induction ts with
  | nil => rfl
  | cons ti ts ih =>
      show tickRun ts none = none
      exact ih

/-- Opacity across an unmatched stretch of ticks is the initial opacity minus
0.05 per tick whose clock exceeds the last-seen time by more than 500 ms;
identity and last-seen time are preserved. -/
theorem tickRun_opacity (ts : List TickInput) :
    ∀ t t' : TrackerState, tickRun ts (some t) = some t' →
      t'.opacity = t.opacity -
        0.05 * ((ts.countP (fun ti => decide (500 < ti.now - t.lastSeenTime))) : ℚ) ∧
      t'.id = t.id ∧ t'.lastSeenTime = t.lastSeenTime := by
  induction ts with
  | nil =>
      intro t t' h
      have h2 : t = t' := Option.some.inj h
      subst h2
      refine ⟨by simp, rfl, rfl⟩
  | cons ti ts ih =>
      intro t t' h
      have hstep : tickRun (ti :: ts) (some t) =
          tickRun ts (tickOne ti.now ti.movingFast ti.videoW ti.videoH ti.screenW
            ti.screenH ti.fov t) := rfl
      rw [hstep] at h
      rcases h1 : tickOne ti.now ti.movingFast ti.videoW ti.videoH ti.screenW
          ti.screenH ti.fov t with _ | t1
      · rw [h1, tickRun_none] at h
        exact absurd h (by simp)
      · rw [h1] at h
        obtain ⟨hop, hid, hls⟩ := ih t1 t' h
        obtain ⟨gid, -, gls, -, gop⟩ := tickOne_fields ti.now ti.movingFast ti.videoW
          ti.videoH ti.screenW ti.screenH ti.fov t t1 h1
        have hcount : (ti :: ts).countP
            (fun ti' => decide (500 < ti'.now - t.lastSeenTime)) =
            ts.countP (fun ti' => decide (500 < ti'.now - t.lastSeenTime)) +
              (if 500 < ti.now - t.lastSeenTime then 1 else 0) := by
          by_cases hl : 500 < ti.now - t.lastSeenTime
          · rw [List.countP_cons, if_pos hl]
            simp [hl]
          · rw [List.countP_cons, if_neg hl]
            simp [hl]
        refine ⟨?_, by rw [hid, gid], by rw [hls, gls]⟩
        rw [hop, gop, hcount, gls]
        by_cases hl : 500 < ti.now - t.lastSeenTime
        · rw [if_pos hl, if_pos hl]
          push_cast
          ring
        · rw [if_neg hl, if_neg hl]
          push_cast
          ring

/-- C2: a track unmatched for more than 500 ms is Lost; while Lost its
opacity drops by the fixed 0.05 step on each tick, and once the decayed
opacity is below 0.05 the tick evicts it: the tracker and its label handle
are removed from the registries, and — because ids are handed out
monotonically and the registry only ever contains ids below the counter — a
removed id never reappears in the registry or in any later tick output. -/
theorem lifecycle_lost_evict_no_return :
    (∀ (now : ℤ) (fast : Bool) (vw vh sw sh fov : ℝ) (t : TrackerState),
        500 < now - t.lastSeenTime →
        (tickOne now fast vw vh sw sh fov t).map TrackerState.opacity =
          if t.opacity - 0.05 < 0.05 then none else some (t.opacity - 0.05)) ∧
    (∀ (now : ℤ) (fast : Bool) (vw vh sw sh fov : ℝ) (lidar : Bool)
        (sel : ℕ → Bool) (st : SysState) (t : TrackerState),
        t ∈ st.trackers → (∀ u ∈ st.trackers, u.id = t.id → u = t) →
        500 < now - t.lastSeenTime → t.opacity - 0.05 < 0.05 →
        (∀ u ∈ (updateVisualsAndPhysics now fast vw vh sw sh fov lidar sel st).1.trackers,
            u.id ≠ t.id) ∧
        t.id ∉ (updateVisualsAndPhysics now fast vw vh sw sh fov lidar sel st).1.labels) ∧
    (∀ (st : SysState) (dead : ℕ) (evs : List Event),
        (∀ u ∈ st.trackers, u.id < st.nextId) →
        (∀ u ∈ st.trackers, u.id ≠ dead) →
        dead < st.nextId →
        (∀ u ∈ (run st evs).trackers, u.id ≠ dead) ∧
        (∀ ti : TickInput, ∀ o ∈ (updateVisualsAndPhysics ti.now ti.movingFast
            ti.videoW ti.videoH ti.screenW ti.screenH ti.fov ti.lidar ti.sel
            (run st evs)).2, o.id ≠ dead)) := by
  refine ⟨?_, ?_, ?_⟩
  · intro now fast vw vh sw sh fov t hl
    rw [tickOne_opacity, if_pos hl]
  · intro now fast vw vh sw sh fov lidar sel st t ht huniq hl ho
    have hnone := tickOne_evicts now fast vw vh sw sh fov t hl ho
    constructor
    · intro u hu heq
      obtain ⟨v, hv, hvv⟩ :=
        (uvp_trackers_mem now fast vw vh sw sh fov lidar sel st u).mp hu
      have hid := (tickOne_fields now fast vw vh sw sh fov v u hvv).1
      have hvt : v = t := huniq v hv (by rw [← hid, heq])
      subst hvt
      rw [hnone] at hvv
      exact absurd hvv (by simp)
    · intro hmem
      have hpair : (t.id, (none : Option TrackerState)) ∈ st.trackers.map
          (fun v => (v.id, tickOne now fast vw vh sw sh fov v)) :=
        List.mem_map.mpr ⟨t, ht, by rw [hnone]⟩
      have hev : t.id ∈ ((st.trackers.map
          (fun v => (v.id, tickOne now fast vw vh sw sh fov v))).filter
            (fun x => x.2.isNone)).map (fun x => x.1) :=
        List.mem_map.mpr ⟨(t.id, none), List.mem_filter.mpr ⟨hpair, rfl⟩, rfl⟩
      have hmem' : t.id ∈ st.labels.filter (fun l => !(((st.trackers.map
          (fun v => (v.id, tickOne now fast vw vh sw sh fov v))).filter
            (fun x => x.2.isNone)).map (fun x => x.1)).contains l) := hmem
      have hbool := (List.mem_filter.mp hmem').2
      rw [Bool.not_eq_true'] at hbool
      have hcont : (((st.trackers.map
          (fun v => (v.id, tickOne now fast vw vh sw sh fov v))).filter
            (fun x => x.2.isNone)).map (fun x => x.1)).contains t.id = true :=
        List.elem_eq_true_of_mem hev
      rw [hbool] at hcont
      exact absurd hcont (by simp)
  · intro st dead evs h1 h2 h3
    obtain ⟨g1, g2, g3⟩ := run_preserves dead evs st h1 h2 h3
    refine ⟨g2, ?_⟩
    intro ti o hoo
    obtain ⟨t', ht', rfl⟩ := uvp_output_mem ti.now ti.movingFast ti.videoW ti.videoH
      ti.screenW ti.screenH ti.fov ti.lidar ti.sel (run st evs) o hoo
    obtain ⟨v, hv, hvv⟩ := (uvp_trackers_mem ti.now ti.movingFast ti.videoW ti.videoH
      ti.screenW ti.screenH ti.fov ti.lidar ti.sel (run st evs) t').mp ht'
    have hid := (tickOne_fields ti.now ti.movingFast ti.videoW ti.videoH ti.screenW
      ti.screenH ti.fov v t' hvv).1
    show t'.id ≠ dead
    rw [hid]
    exact g2 v hv

/-- Witness for C2: a lost tracker at opacity 0.05 is evicted by the next
tick (registry and label), and a retired id below the counter never returns
under any event sequence. -/
theorem lifecycle_lost_evict_no_return_witness :
    ((tickOne 1000 false 1 1 1 1 75
        (newTracker 0 1 "person" none ⟨0, 0, 10, 10⟩)).map TrackerState.opacity =
      if (newTracker 0 1 "person" none ⟨0, 0, 10, 10⟩).opacity - 0.05 < 0.05 then none
      else some ((newTracker 0 1 "person" none ⟨0, 0, 10, 10⟩).opacity - 0.05)) ∧
    ((∀ u ∈ (updateVisualsAndPhysics 1000 false 1 1 1 1 75 false (fun _ => false)
        ⟨[⟨1, "person", 0, 0, 0.05, ⟨0, 0, 10, 10⟩,
            ⟨⟨0, 0, -10⟩, ⟨0, 0, -10⟩, ⟨0, 0, 0⟩, 0.1⟩, 0, none⟩], [1], 2,
          ⟨"", 0⟩⟩).1.trackers, u.id ≠ 1) ∧
      (1 : ℕ) ∉ (updateVisualsAndPhysics 1000 false 1 1 1 1 75 false (fun _ => false)
        ⟨[⟨1, "person", 0, 0, 0.05, ⟨0, 0, 10, 10⟩,
            ⟨⟨0, 0, -10⟩, ⟨0, 0, -10⟩, ⟨0, 0, 0⟩, 0.1⟩, 0, none⟩], [1], 2,
          ⟨"", 0⟩⟩).1.labels) ∧
    ((∀ u ∈ (run ⟨[], [], 2, ⟨"", 0⟩⟩ []).trackers, u.id ≠ 1) ∧
      (∀ ti : TickInput, ∀ o ∈ (updateVisualsAndPhysics ti.now ti.movingFast
          ti.videoW ti.videoH ti.screenW ti.screenH ti.fov ti.lidar ti.sel
          (run ⟨[], [], 2, ⟨"", 0⟩⟩ [])).2, o.id ≠ 1)) := by
  refine ⟨?_, ?_, ?_⟩
  · exact lifecycle_lost_evict_no_return.1 1000 false 1 1 1 1 75
      (newTracker 0 1 "person" none ⟨0, 0, 10, 10⟩) (by norm_num [newTracker])
  · exact lifecycle_lost_evict_no_return.2.1 1000 false 1 1 1 1 75 false
      (fun _ => false)
      ⟨[⟨1, "person", 0, 0, 0.05, ⟨0, 0, 10, 10⟩,
          ⟨⟨0, 0, -10⟩, ⟨0, 0, -10⟩, ⟨0, 0, 0⟩, 0.1⟩, 0, none⟩], [1], 2, ⟨"", 0⟩⟩
      ⟨1, "person", 0, 0, 0.05, ⟨0, 0, 10, 10⟩,
        ⟨⟨0, 0, -10⟩, ⟨0, 0, -10⟩, ⟨0, 0, 0⟩, 0.1⟩, 0, none⟩
      (by simp)
      (by
        intro u hu heq
        rw [List.mem_singleton] at hu
        exact hu)
      (by norm_num)
      (by norm_num)
  · exact lifecycle_lost_evict_no_return.2.2 ⟨[], [], 2, ⟨"", 0⟩⟩ 1 []
      (fun u hu => absurd hu (List.not_mem_nil u))
      (fun u hu => absurd hu (List.not_mem_nil u))
      (by norm_num)

/-- C3: opacity is reset to exactly 1.0 on every match (whatever its decayed
value, with the id and registry entry preserved and lastSeen set to the match
time); on a tick it is unchanged unless the track has been unmatched for more
than 500 ms, in which case it drops by 0.05; across any unmatched stretch of
ticks it equals the initial value minus 0.05 per tick whose clock exceeds the
last-match time by more than 500 ms — a function of the times elapsed since
the last match. -/
theorem opacity_reset_and_decay :
    (∀ (now : ℤ) (interval : ℚ) (g : Option String) (sb : Box4) (t : TrackerState),
        (matchedUpdate now interval g sb t).opacity = 1.0 ∧
        (matchedUpdate now interval g sb t).id = t.id ∧
        (matchedUpdate now interval g sb t).lastSeenTime = now) ∧
    (∀ (now : ℤ) (fast : Bool) (vw vh sw sh fov : ℝ) (t : TrackerState),
        (tickOne now fast vw vh sw sh fov t).map TrackerState.opacity =
          if 500 < now - t.lastSeenTime then
            (if t.opacity - 0.05 < 0.05 then none else some (t.opacity - 0.05))
          else some t.opacity) ∧
    (∀ (ts : List TickInput) (t t' : TrackerState),
        tickRun ts (some t) = some t' →
        t'.opacity = t.opacity -
          0.05 * ((ts.countP (fun ti => decide (500 < ti.now - t.lastSeenTime))) : ℚ) ∧
        t'.id = t.id ∧ t'.lastSeenTime = t.lastSeenTime) := by
  refine ⟨fun now interval g sb t => ⟨rfl, rfl, rfl⟩, ?_, ?_⟩
  · intro now fast vw vh sw sh fov t
    exact tickOne_opacity now fast vw vh sw sh fov t
  · intro ts t t' h
    exact tickRun_opacity ts t t' h

/-- Witness for C3: the purity statement applied to the empty tick stretch. -/
theorem opacity_reset_and_decay_witness :
    (newTracker 0 1 "person" none ⟨0, 0, 10, 10⟩).opacity =
      (newTracker 0 1 "person" none ⟨0, 0, 10, 10⟩).opacity -
        0.05 * ((([] : List TickInput).countP (fun ti => decide (500 < ti.now -
          (newTracker 0 1 "person" none ⟨0, 0, 10, 10⟩).lastSeenTime))) : ℚ) ∧
    (newTracker 0 1 "person" none ⟨0, 0, 10, 10⟩).id =
      (newTracker 0 1 "person" none ⟨0, 0, 10, 10⟩).id ∧
    (newTracker 0 1 "person" none ⟨0, 0, 10, 10⟩).lastSeenTime =
      (newTracker 0 1 "person" none ⟨0, 0, 10, 10⟩).lastSeenTime :=
  opacity_reset_and_decay.2.2 [] (newTracker 0 1 "person" none ⟨0, 0, 10, 10⟩)
    (newTracker 0 1 "person" none ⟨0, 0, 10, 10⟩) rfl

/-- C10: every object of the per-tick output list carries confidence exactly
1 and isOccluded exactly false, whatever the detections that created or last
updated its track scored. -/
theorem output_confidence_occlusion (now : ℤ) (fast : Bool)
    (vw vh sw sh fov : ℝ) (lidar : Bool) (sel : ℕ → Bool) (st : SysState) :
    ((updateVisualsAndPhysics now fast vw vh sw sh fov lidar sel st).2.all
      (fun o => decide (o.confidence = 1) && !o.isOccluded)) = true := by
  rw [List.all_eq_true]
  intro o hoo
  obtain ⟨t', ht', rfl⟩ := uvp_output_mem now fast vw vh sw sh fov lidar sel st o hoo
  simp [entryOf]
